import Mathlib

/-!
Verification of the Ubuntu image fetcher (`src/ubuntu_image_fetcher.py`).

The development shallowly embeds the fetcher: bytes are natural numbers
below 256, Python strings are Lean strings (ASCII semantics for case
folding and alphanumeric classification; the fetcher is only exercised on
ASCII data), Python `set` objects are duplicate-free lists, the filesystem
and the network are explicit parameters, and every operation that can
raise is modelled with `Except`/`Option`.  MD5 is implemented in full.
-/

namespace UbuntuFetcher

/-- A byte value (0..255). -/
abbrev Byte := Nat

/-! ## Python string primitives

These embed the Python `str`/stdlib operations used by the fetcher.
Case folding and `isalnum` are modelled at ASCII level (`Char.toLower`,
`Char.isAlphanum`); Python is Unicode-aware but the claims and the
fetcher's data are ASCII. -/

/-- Embeds Python `str.lower` (ASCII range). -/
def pyLower (s : String) : String := ⟨s.data.map Char.toLower⟩

/-- Embeds Python `str.startswith`. -/
def pyStartswith (s p : String) : Bool := p.data.isPrefixOf s.data

/-- Characters Python `str.strip()` removes by default (ASCII whitespace). -/
def pyIsSpace (c : Char) : Bool :=
  c = ' ' || c = '\t' || c = '\n' || c = '\r' || c = '\x0b' || c = '\x0c'

/-- Embeds Python `str.strip()` with no argument. -/
def pyStrip (s : String) : String :=
  ⟨((s.data.dropWhile pyIsSpace).reverse.dropWhile pyIsSpace).reverse⟩

/-- Digit sequence for Python `int(str)`: digits with single underscores
strictly between digits.  The boolean flag records whether the previous
character was a digit (so an underscore is currently allowed). -/
def pyIntDigitsAux : List Char → Bool → Option (List Char)
  | [], prevDigit => if prevDigit then some [] else none
  | c :: rest, prevDigit =>
    if c = '_' then
      if prevDigit then pyIntDigitsAux rest false else none
    else if c.isDigit then
      (pyIntDigitsAux rest true).map (fun ds => c :: ds)
    else none

/-- Numeric value of a list of decimal digit characters (most significant
first). -/
def digitsVal (l : List Char) : Nat :=
  l.foldl (fun acc c => 10 * acc + (c.toNat - 48)) 0

/-- Embeds Python `int(str)`: optional surrounding whitespace, optional
sign, then a non-empty digit sequence (underscores allowed between
digits).  `none` models a raised `ValueError`. -/
def pyInt (s : String) : Option Int :=
  match (pyStrip s).data with
  | '+' :: rest => (pyIntDigitsAux rest false).map (fun ds => (digitsVal ds : Int))
  | '-' :: rest => (pyIntDigitsAux rest false).map (fun ds => -(digitsVal ds : Int))
  | l => (pyIntDigitsAux l false).map (fun ds => (digitsVal ds : Int))

/-- Decimal digits of a natural number, least significant first, driven by
fuel (any fuel above zero at least `n / 10` deep suffices; `decStr` always
supplies enough). -/
def decDigits : Nat → Nat → List Nat
  | 0, _ => []
  | fuel + 1, n => if n < 10 then [n] else n % 10 :: decDigits fuel (n / 10)

/-- Value of a least-significant-first decimal digit list. -/
def decVal : List Nat → Nat
  | [] => 0
  | d :: ds => d + 10 * decVal ds

/-- Decimal digit character, via a literal table. -/
def decDigitChar (d : Nat) : Char :=
  "0123456789".data.getD d '*'

/-- Embeds Python `str(int)` / f-string formatting of a non-negative
integer: its decimal representation. -/
def decStr (n : Nat) : String :=
  ⟨((decDigits (n + 1) n).reverse).map decDigitChar⟩

/-- One-pass, left-to-right, non-overlapping replacement of every
occurrence of `old` (embeds Python `str.replace(old, new)`; the fetcher
only uses the non-empty pattern `"www."`, for which the fuel
`l.length` always suffices). -/
def pyReplaceAux (old new : List Char) : Nat → List Char → List Char
  | 0, l => l
  | fuel + 1, l =>
    match l with
    | [] => []
    | c :: rest =>
      if old.isPrefixOf l then new ++ pyReplaceAux old new fuel (l.drop old.length)
      else c :: pyReplaceAux old new fuel rest

/-- Embeds Python `str.replace` for a non-empty pattern. -/
def pyReplace (s old new : String) : String :=
  ⟨pyReplaceAux old.data new.data s.data.length s.data⟩

/-- Splits a list at the first occurrence of `c`, returning the parts
before and after it, or `none` when `c` does not occur. -/
def splitAtFirst (c : Char) : List Char → Option (List Char × List Char)
  | [] => none
  | x :: xs =>
    if x = c then some ([], xs)
    else (splitAtFirst c xs).map (fun p => (x :: p.1, p.2))

/-- Embeds Python `str.split(';')[0]`: the part before the first `;` (the
whole string when there is none). -/
def splitSemiHead (s : String) : String := ⟨s.data.takeWhile (fun c => c ≠ ';')⟩

/-- Embeds `os.path.basename` (POSIX): everything after the last `/`. -/
def osBasename (p : String) : String :=
  ⟨(p.data.reverse.takeWhile (fun c => c ≠ '/')).reverse⟩

/-- Embeds `pathlib.PurePath.suffix` of a file name: from the last dot on,
provided that dot is neither the first nor the last character. -/
def pathSuffix (name : String) : String :=
  let l := name.data
  let tailLen := (l.reverse.takeWhile (fun c => c ≠ '.')).length
  if tailLen = l.length then ""
  else
    let i := l.length - 1 - tailLen
    if 0 < i ∧ i < l.length - 1 then ⟨l.drop i⟩ else ""

/-- Embeds `pathlib.PurePath.stem` of a file name: the name with
`pathSuffix` removed. -/
def pathStem (name : String) : String :=
  let l := name.data
  let tailLen := (l.reverse.takeWhile (fun c => c ≠ '.')).length
  if tailLen = l.length then name
  else
    let i := l.length - 1 - tailLen
    if 0 < i ∧ i < l.length - 1 then ⟨l.take i⟩ else name

/-- Result of `urllib.parse.urlparse` (the components the fetcher uses,
plus query and fragment so the path is delimited correctly). -/
structure ParsedUrl where
  scheme : String
  netloc : String
  path : String
  query : String
  fragment : String
deriving DecidableEq, Repr

/-- Characters allowed in a URL scheme. -/
def schemeChar (c : Char) : Bool :=
  c.isAlpha || c.isDigit || c = '+' || c = '-' || c = '.'

/-- Modelled from the Python stdlib `urllib.parse.urlparse`, restricted to
what the fetcher relies on: scheme splitting at the first `:` (accepted
only when the candidate scheme is non-empty, starts with a letter and
uses scheme characters only), authority between `//` and the next
`/`, `?` or `#`, then fragment after the first `#` and query after the
first `?`.  RFC 3986 parameter splitting is irrelevant here (the fetcher
reads only `netloc` and `path`). -/
def urlparse (url : String) : ParsedUrl :=
  let l := url.data
  let schemeRest : String × List Char :=
    match splitAtFirst ':' l with
    | some (pre, post) =>
      match pre with
      | c :: _ => if c.isAlpha ∧ pre.all schemeChar then (pyLower ⟨pre⟩, post) else ("", l)
      | [] => ("", l)
    | none => ("", l)
  let scheme := schemeRest.1
  let rest := schemeRest.2
  let netlocRest : String × List Char :=
    match rest with
    | '/' :: '/' :: r =>
      let nl := r.takeWhile (fun c => c ≠ '/' ∧ c ≠ '?' ∧ c ≠ '#')
      (⟨nl⟩, r.drop nl.length)
    | _ => ("", rest)
  let netloc := netlocRest.1
  let afterNetloc := netlocRest.2
  let beforeFragFrag : List Char × String :=
    match splitAtFirst '#' afterNetloc with
    | some (bf, fr) => (bf, ⟨fr⟩)
    | none => (afterNetloc, "")
  let pathQuery : String × String :=
    match splitAtFirst '?' beforeFragFrag.1 with
    | some (pa, q) => (⟨pa⟩, ⟨q⟩)
    | none => (⟨beforeFragFrag.1⟩, "")
  { scheme := scheme, netloc := netloc, path := pathQuery.1,
    query := pathQuery.2, fragment := beforeFragFrag.2 }

/-- Modelled from the Python stdlib `mimetypes.guess_extension`,
restricted to the image MIME types of the default type map (the table is
environment-dependent in Python; these are the stock entries).  Lookup is
case-insensitive, as in `mimetypes`. -/
def guess_extension (mime : String) : Option String :=
  let m := pyLower mime
  if m = "image/jpeg" then some ".jpg"
  else if m = "image/png" then some ".png"
  else if m = "image/gif" then some ".gif"
  else if m = "image/bmp" then some ".bmp"
  else if m = "image/webp" then some ".webp"
  else if m = "image/svg+xml" then some ".svg"
  else if m = "image/tiff" then some ".tiff"
  else none

/-! ## MD5

Full implementation of the MD5 digest (RFC 1321), used by the fetcher as
`hashlib.md5(content).hexdigest()`.  Words are naturals reduced modulo
`2 ^ 32`. -/

/-- The 32-bit word modulus. -/
def w32 : Nat := 4294967296

/-- Bitwise complement on 32-bit words. -/
def wnot (x : Nat) : Nat := 4294967295 - x % w32

/-- Left rotation of a 32-bit word by `s` places. -/
def rotl (x s : Nat) : Nat :=
  ((x % w32) * 2 ^ s + (x % w32) / 2 ^ (32 - s)) % w32

/-- The MD5 sine-derived constant table `K` (RFC 1321). -/
def md5K : List Nat :=
  [0xD76AA478, 0xE8C7B756, 0x242070DB, 0xC1BDCEEE,
   0xF57C0FAF, 0x4787C62A, 0xA8304613, 0xFD469501,
   0x698098D8, 0x8B44F7AF, 0xFFFF5BB1, 0x895CD7BE,
   0x6B901122, 0xFD987193, 0xA679438E, 0x49B40821,
   0xF61E2562, 0xC040B340, 0x265E5A51, 0xE9B6C7AA,
   0xD62F105D, 0x02441453, 0xD8A1E681, 0xE7D3FBC8,
   0x21E1CDE6, 0xC33707D6, 0xF4D50D87, 0x455A14ED,
   0xA9E3E905, 0xFCEFA3F8, 0x676F02D9, 0x8D2A4C8A,
   0xFFFA3942, 0x8771F681, 0x6D9D6122, 0xFDE5380C,
   0xA4BEEA44, 0x4BDECFA9, 0xF6BB4B60, 0xBEBFBC70,
   0x289B7EC6, 0xEAA127FA, 0xD4EF3085, 0x04881D05,
   0xD9D4D039, 0xE6DB99E5, 0x1FA27CF8, 0xC4AC5665,
   0xF4292244, 0x432AFF97, 0xAB9423A7, 0xFC93A039,
   0x655B59C3, 0x8F0CCC92, 0xFFEFF47D, 0x85845DD1,
   0x6FA87E4F, 0xFE2CE6E0, 0xA3014314, 0x4E0811A1,
   0xF7537E82, 0xBD3AF235, 0x2AD7D2BB, 0xEB86D391]

/-- The MD5 per-round shift table `s` (RFC 1321). -/
def md5S : List Nat :=
  [7, 12, 17, 22, 7, 12, 17, 22, 7, 12, 17, 22, 7, 12, 17, 22,
   5, 9, 14, 20, 5, 9, 14, 20, 5, 9, 14, 20, 5, 9, 14, 20,
   4, 11, 16, 23, 4, 11, 16, 23, 4, 11, 16, 23, 4, 11, 16, 23,
   6, 10, 15, 21, 6, 10, 15, 21, 6, 10, 15, 21, 6, 10, 15, 21]

/-- One MD5 operation: `m` is the 16-word schedule of the current chunk,
`st` the running `(a, b, c, d)` state, `i` the operation index (0..63). -/
def md5Op (m : List Nat) (st : Nat × Nat × Nat × Nat) (i : Nat) :
    Nat × Nat × Nat × Nat :=
  let a := st.1
  let b := st.2.1
  let c := st.2.2.1
  let d := st.2.2.2
  let f :=
    if i < 16 then (b &&& c) ||| (wnot b &&& d)
    else if i < 32 then (d &&& b) ||| (wnot d &&& c)
    else if i < 48 then b ^^^ c ^^^ d
    else c ^^^ (b ||| wnot d)
  let g :=
    if i < 16 then i
    else if i < 32 then (5 * i + 1) % 16
    else if i < 48 then (3 * i + 5) % 16
    else (7 * i) % 16
  let fv := (f + a + md5K.getD i 0 + m.getD g 0) % w32
  (d, (b + rotl fv (md5S.getD i 0)) % w32, b, c)

/-- Assembles consecutive groups of four bytes into little-endian 32-bit
words. -/
def bytesToWords : List Byte → List Nat
  | b0 :: b1 :: b2 :: b3 :: rest =>
    (b0 % 256 + 256 * (b1 % 256) + 65536 * (b2 % 256) + 16777216 * (b3 % 256))
      :: bytesToWords rest
  | _ => []

/-- Splits a list into chunks of 64 bytes (fuel-driven; fuel
`l.length` always suffices since every step consumes at least one
element). -/
def chunks64 : Nat → List Byte → List (List Byte)
  | 0, _ => []
  | fuel + 1, l =>
    match l with
    | [] => []
    | _ :: _ => l.take 64 :: chunks64 fuel (l.drop 64)

/-- MD5 padding: a `0x80` byte, zeros to 56 mod 64, then the bit length
as a 64-bit little-endian quantity. -/
def md5Pad (msg : List Byte) : List Byte :=
  let len := msg.length
  let zeros := (64 + 56 - (len + 1) % 64) % 64
  msg ++ [0x80] ++ List.replicate zeros 0 ++
    (List.range 8).map (fun j => len * 8 / 2 ^ (8 * j) % 256)

/-- Processes one 64-byte chunk, updating the four-word MD5 state. -/
def md5Chunk (st : Nat × Nat × Nat × Nat) (chunk : List Byte) :
    Nat × Nat × Nat × Nat :=
  let m := bytesToWords chunk
  let r := (List.range 64).foldl (md5Op m) st
  ((st.1 + r.1) % w32, (st.2.1 + r.2.1) % w32,
   (st.2.2.1 + r.2.2.1) % w32, (st.2.2.2 + r.2.2.2) % w32)

/-- Little-endian byte decomposition of a 32-bit word. -/
def wordToBytes (x : Nat) : List Byte :=
  [x % 256, x / 256 % 256, x / 65536 % 256, x / 16777216 % 256]

/-- The 16-byte MD5 digest of a byte string. -/
def md5Bytes (msg : List Byte) : List Byte :=
  let padded := md5Pad msg
  let st := (chunks64 padded.length padded).foldl md5Chunk
    (0x67452301, 0xEFCDAB89, 0x98BADCFE, 0x10325476)
  wordToBytes st.1 ++ wordToBytes st.2.1 ++ wordToBytes st.2.2.1 ++
    wordToBytes st.2.2.2

/-- Lowercase hexadecimal digit characters. -/
def hexChars : List Char := "0123456789abcdef".data

/-- Two lowercase hex characters for one byte. -/
def byteToHex (b : Byte) : List Char :=
  [hexChars.getD (b / 16 % 16) '0', hexChars.getD (b % 16) '0']

/-- Embeds Python `hashlib.md5(content).hexdigest()`: the 32-character
lowercase hexadecimal MD5 digest. -/
def md5_hexdigest (content : List Byte) : String :=
  ⟨(md5Bytes content).foldr (fun b acc => byteToHex b ++ acc) []⟩

/-! ## The fetcher (`src/ubuntu_image_fetcher.py`)

The HTTP response, the network outcome, and the success/failure of the
two filesystem effects (`os.makedirs`, `open`/`write`) are explicit
inputs; the storage directory's contents are carried in the fetcher
state.  Print side effects are captured in the `FetchOutcome` value. -/

/-- An HTTP response as seen by the fetcher: status code, headers (keys
compared case-insensitively, as `requests` exposes them), and the fully
materialized body. -/
structure Response where
  status_code : Nat
  headers : List (String × String)
  content : List Byte
deriving DecidableEq, Repr

/-- Embeds `response.headers.get(key)`: case-insensitive lookup of the
first matching header (`key` is expected lowercase, as the fetcher always
passes it). -/
def headersGet (hs : List (String × String)) (key : String) : Option String :=
  (hs.find? (fun p => pyLower p.1 = key)).map (fun p => p.2)

/-- The signature table of `_validate_image_response` (source lines
68-74): JPEG, PNG, GIF87a, GIF89a, BMP, RIFF. -/
def image_signatures : List (List Byte) :=
  [[0xFF, 0xD8, 0xFF],
   [0x89, 0x50, 0x4E, 0x47, 0x0D, 0x0A, 0x1A, 0x0A],
   [0x47, 0x49, 0x46, 0x38, 0x37, 0x61],
   [0x47, 0x49, 0x46, 0x38, 0x39, 0x61],
   [0x42, 0x4D],
   [0x52, 0x49, 0x46, 0x46]]

/-- Embeds `UbuntuImageFetcher._validate_image_response` (source lines
52-79).  The `Except` error is a raised `ValueError` from
`int(content_length)` on a malformed header value; `Except.ok (b, msg)`
is the returned `(is_valid, message)` pair.  The Python truthiness test
`if content_length and ...` skips the size check when the header is
absent or the empty string. -/
def validate_image_response (r : Response) : Except String (Bool × String) :=
  let content_type := pyLower ((headersGet r.headers "content-type").getD "")
  if ¬ pyStartswith content_type "image/" then
    .ok (false, "Content-Type \x27" ++ content_type ++ "\x27 is not an image type")
  else
    let content_length := (headersGet r.headers "content-length").getD ""
    let sigCheck : Except String (Bool × String) :=
      let content_start := r.content.take 10
      if ¬ image_signatures.any (fun sig => sig.isPrefixOf content_start) then
        .ok (false, "Content doesn\x27t appear to be a valid image")
      else
        .ok (true, "Valid image")
    if content_length = "" then sigCheck
    else
      match pyInt content_length with
      | none =>
        .error ("ValueError: invalid literal for int() with base 10: \x27"
          ++ content_length ++ "\x27")
      | some n =>
        if n > 50 * 1024 * 1024 then
          .ok (false, "Image too large (>50MB) - skipping for safety")
        else sigCheck

/-- Embeds the sanitization step of `_generate_filename` (source line
99): keep alphanumeric characters, `.`, `-` and `_`. -/
def sanitize_filename (s : String) : String :=
  ⟨s.data.filter (fun c => c.isAlphanum || c = '.' || c = '-' || c = '_')⟩

/-- Embeds `UbuntuImageFetcher._generate_filename` (source lines
81-100).  `time.time()` is passed explicitly as an integral timestamp. -/
def generate_filename (url : String) (content_type : String)
    (timestamp : Nat) : String :=
  let parsed_url := urlparse url
  let filename := osBasename parsed_url.path
  let filename :=
    if filename = "" ∨ ¬ ('.' ∈ filename.data) then
      let extension := (guess_extension (splitSemiHead content_type)).getD ".jpg"
      let domain := pyReplace parsed_url.netloc "www." ""
      domain ++ "_" ++ decStr timestamp ++ extension
    else filename
  sanitize_filename filename

/-- Embeds `UbuntuImageFetcher._check_duplicate` (source lines 102-108):
returns the duplicate flag together with the (possibly grown) hash set,
modelled as a duplicate-free list. -/
def check_duplicate (hashes : List String) (content : List Byte) :
    Bool × List String :=
  let content_hash := md5_hexdigest content
  if content_hash ∈ hashes then (true, hashes)
  else (false, content_hash :: hashes)

/-- The filename-collision loop of `fetch_image` (source lines 143-149):
starting from counter `k`, return the first `{stem}_{k}{ext}` that names
no existing file.  Fuel-driven; the fuel used by `ensure_unique_filename`
is provably sufficient. -/
def uniqueNameLoop (files : List String) (stem ext : String) :
    Nat → Nat → String
  | 0, k => stem ++ "_" ++ decStr k ++ ext
  | fuel + 1, k =>
    let cand := stem ++ "_" ++ decStr k ++ ext
    if cand ∈ files then uniqueNameLoop files stem ext fuel (k + 1) else cand

/-- Embeds the `while filepath.exists()` collision resolution of
`fetch_image` (source lines 143-149), with the directory contents
`files` given explicitly: the original name if free, else the first
`{stem}_{counter}{ext}` (counter starting at 1) that is free. -/
def ensure_unique_filename (files : List String) (filename : String) : String :=
  if filename ∈ files then
    uniqueNameLoop files (pathStem filename) (pathSuffix filename)
      (files.length + 1) 1
  else filename

/-- The reported outcome of one `fetch_image` call: the returned boolean
together with the diagnostic message printed for that branch (source
lines 110-173).  `success` also records the printed file name and path. -/
inductive FetchOutcome where
  | success (filename : String) (filepath : String)
  | validationFailed (message : String)
  | duplicate
  | timeout
  | connectionError
  | httpError (status : Nat)
  | requestError (message : String)
  | unexpectedError (message : String)
deriving DecidableEq, Repr

/-- Result of `self.session.get(url, timeout=10, stream=True)`: either a
response or one of the `requests` exception classes the fetcher
catches. -/
inductive NetResult where
  | timeout
  | connectionError
  | requestError (message : String)
  | ok (r : Response)
deriving DecidableEq, Repr

/-- The effectful environment of one `fetch_image` call: the network
outcome, the value of `time.time()` (as used by `_generate_filename`),
and whether `os.makedirs` and the `open`/`write` of the image file
succeed (a `false` flag models a raised `OSError`). -/
structure FetchEnv where
  net : NetResult
  timestamp : Nat
  mkdirOk : Bool
  writeOk : Bool
deriving DecidableEq, Repr

/-- The state a `UbuntuImageFetcher` instance owns, together with the
contents of its storage directory (file names in `base_dir`, which the
collision loop consults through `Path.exists`). -/
structure FetcherState where
  base_dir : String
  downloaded_hashes : List String
  files : List String
deriving DecidableEq, Repr

/-- Modelled from the requests library: `Response.raise_for_status`
raises `HTTPError` exactly for status codes 400-599. -/
def raise_for_status (status : Nat) : Bool := 400 ≤ status ∧ status < 600

/-- Embeds `UbuntuImageFetcher.fetch_image` (source lines 110-173) as a
function from the fetcher state and the call's environment to the
reported outcome and the successor state.  The `except` clauses of the
source map each anticipated failure to its outcome: `Timeout`,
`ConnectionError`, `HTTPError` (carrying the status), other
`RequestException`s, and a final `except Exception` that also receives
`ValueError` from validation and `OSError` from `makedirs`/`write`. -/
def fetch_image (s : FetcherState) (env : FetchEnv) (url : String) :
    FetchOutcome × FetcherState :=
  match env.net with
  | .timeout => (.timeout, s)
  | .connectionError => (.connectionError, s)
  | .requestError m => (.requestError m, s)
  | .ok r =>
    if raise_for_status r.status_code then (.httpError r.status_code, s)
    else
      match validate_image_response r with
      | .error e => (.unexpectedError e, s)
      | .ok (is_valid, message) =>
        if ¬ is_valid then (.validationFailed message, s)
        else
          let content := r.content
          let dup := check_duplicate s.downloaded_hashes content
          let s1 := { s with downloaded_hashes := dup.2 }
          if dup.1 then (.duplicate, s1)
          else if ¬ env.mkdirOk then
            (.unexpectedError "OSError: makedirs failed", s1)
          else
            let content_type :=
              (headersGet r.headers "content-type").getD "image/jpeg"
            let filename := generate_filename url content_type env.timestamp
            let final := ensure_unique_filename s1.files filename
            if ¬ env.writeOk then
              (.unexpectedError "OSError: write failed", s1)
            else
              (.success filename (s1.base_dir ++ "/" ++ final),
               { s1 with files := final :: s1.files })

/-! ## Construction (`__init__` and `_load_existing_hashes`) -/

/-- A file of the storage directory as seen by the bootstrap scan: its
name (path relative to the directory), its bytes, and whether it can be
opened and read (`false` models the `except Exception: continue`
branch). -/
structure DiskFile where
  name : String
  content : List Byte
  readable : Bool
deriving DecidableEq, Repr

/-- The extension allow-list of `_is_image_file` (source line 49). -/
def image_extensions : List String :=
  [".jpg", ".jpeg", ".png", ".gif", ".bmp", ".webp", ".svg", ".ico"]

/-- Embeds `UbuntuImageFetcher._is_image_file` (source lines 47-50). -/
def is_image_file (name : String) : Bool :=
  pyLower (pathSuffix name) ∈ image_extensions

/-- Embeds `UbuntuImageFetcher._load_existing_hashes` (source lines
33-45).  `none` models a non-existent storage directory.  Unreadable
files are skipped; hashing adds to the set (duplicate-free list). -/
def load_existing_hashes (dir : Option (List DiskFile)) : List String :=
  match dir with
  | none => []
  | some fs =>
    fs.foldl
      (fun acc f =>
        if is_image_file f.name ∧ f.readable then
          let h := md5_hexdigest f.content
          if h ∈ acc then acc else h :: acc
        else acc)
      []

/-- Embeds `UbuntuImageFetcher.__init__` (source lines 16-20): the hash
index is seeded by scanning the storage directory, and the directory
listing becomes the file-existence oracle of the collision loop. -/
def init_fetcher (base_dir : String) (dir : Option (List DiskFile)) :
    FetcherState :=
  { base_dir := base_dir
    downloaded_hashes := load_existing_hashes dir
    files := (dir.getD []).map (fun f => f.name) }

/-! ## Specification-side definitions

These follow the wording of the specification claims (not the code) and
are compared against the code-derived definitions in refinement
theorems. -/

/-- Claim C2, first check, as the spec words it: the `content-type`
header is present and begins with `image/`, case-insensitively, on the
type before any `;` parameters. -/
def claim_ctype_ok (r : Response) : Prop :=
  ∃ ct, headersGet r.headers "content-type" = some ct ∧
    pyStartswith (splitSemiHead (pyLower ct)) "image/" = true

/-- Claim C2, second check, as the spec words it: the declared
content-length, when present (i.e. when it denotes an integer), does not
exceed 50 MiB. -/
def claim_size_ok (r : Response) : Prop :=
  ∀ cl n, headersGet r.headers "content-length" = some cl →
    pyInt cl = some n → n ≤ 50 * 1024 * 1024

/-- Claim C2, third check, as the spec words it: the leading body bytes
match one of the known magic signatures. -/
def claim_sig_ok (r : Response) : Prop :=
  ∃ sig ∈ image_signatures, sig.isPrefixOf r.content = true

/-- Well-formedness of the `content-length` header: every present,
non-empty value parses as an integer (this is what the HTTP layer
normally guarantees; claim C2 fails without it, see its
counterexample). -/
def cl_wellformed (r : Response) : Prop :=
  ∀ cl, headersGet r.headers "content-length" = some cl → cl ≠ "" →
    (pyInt cl).isSome = true

/-- Claim C6's derivation, amended: last path segment when it is
non-empty and contains a dot, otherwise
`{domain}_{timestamp}{extension}` where `domain` is the host with every
occurrence of `www.` removed, the extension comes from the
MIME-to-extension mapping with fallback `.jpg`, and the result is
sanitized. -/
def spec_filename (url : String) (content_type : String)
    (timestamp : Nat) : String :=
  let seg := osBasename (urlparse url).path
  if seg ≠ "" ∧ '.' ∈ seg.data then sanitize_filename seg
  else
    let domain := pyReplace (urlparse url).netloc "www." ""
    let extension := (guess_extension (splitSemiHead content_type)).getD ".jpg"
    sanitize_filename (domain ++ "_" ++ decStr timestamp ++ extension)

/-- Claim C6's domain rule as originally stated: only a leading `www.`
is stripped from the host. -/
def claimed_domain (netloc : String) : String :=
  if pyStartswith netloc "www." then ⟨netloc.data.drop 4⟩ else netloc

/-- Claim C6's filename derivation as originally stated (leading-only
`www.` strip); refuted by the counterexample theorem. -/
def claimed_filename (url : String) (content_type : String)
    (timestamp : Nat) : String :=
  let seg := osBasename (urlparse url).path
  if seg ≠ "" ∧ '.' ∈ seg.data then sanitize_filename seg
  else
    let domain := claimed_domain (urlparse url).netloc
    let extension := (guess_extension (splitSemiHead content_type)).getD ".jpg"
    sanitize_filename (domain ++ "_" ++ decStr timestamp ++ extension)

/-- The collision-suffix candidate for counter value `k`. -/
def candName (stem ext : String) (k : Nat) : String :=
  stem ++ "_" ++ decStr k ++ ext

/-! ## Concrete data used by witnesses and counterexamples -/

/-- A well-formed JPEG response (the spec's reference scenario). -/
def exJpeg : Response :=
  { status_code := 200,
    headers := [("Content-Type", "image/jpeg"), ("Content-Length", "8")],
    content := [0xFF, 0xD8, 0xFF, 0, 1, 2, 3, 4] }

/-- A response identical in body to `exJpeg` but from another server. -/
def exJpegMirror : Response :=
  { status_code := 200,
    headers := [("Content-Type", "image/jpeg")],
    content := [0xFF, 0xD8, 0xFF, 0, 1, 2, 3, 4] }

/-- A fetcher over an empty storage area. -/
def exState : FetcherState := init_fetcher "Fetched_Images" none

/-- An all-succeeding environment delivering response `r`. -/
def exEnv (r : Response) : FetchEnv :=
  { net := .ok r, timestamp := 1700000000, mkdirOk := true, writeOk := true }

/-- A 404 response. -/
def ex404 : Response := { status_code := 404, headers := [], content := [] }

/-- A response declaring a content-length far above 50 MiB. -/
def exBig : Response :=
  { status_code := 200,
    headers := [("Content-Type", "image/jpeg"),
                ("Content-Length", "99999999")],
    content := [0xFF, 0xD8, 0xFF] }

/-- A 304 Not Modified response (no body, no content-type). -/
def ex304 : Response := { status_code := 304, headers := [], content := [] }

/-- An environment delivering `exJpeg` whose file write fails. -/
def exEnvWriteFail : FetchEnv :=
  { net := .ok exJpeg, timestamp := 1700000000, mkdirOk := true,
    writeOk := false }

/-! ## Branch lemmas for `fetch_image` -/

theorem fetch_image_on_timeout (s : FetcherState) (env : FetchEnv)
    (url : String) (h : env.net = .timeout) :
    fetch_image s env url = (.timeout, s) := by
  simp [fetch_image, h]

theorem fetch_image_on_connectionError (s : FetcherState) (env : FetchEnv)
    (url : String) (h : env.net = .connectionError) :
    fetch_image s env url = (.connectionError, s) := by
  simp [fetch_image, h]

theorem fetch_image_on_requestError (s : FetcherState) (env : FetchEnv)
    (url : String) (m : String) (h : env.net = .requestError m) :
    fetch_image s env url = (.requestError m, s) := by
  simp [fetch_image, h]

theorem fetch_image_on_httpError (s : FetcherState) (env : FetchEnv)
    (url : String) (r : Response) (hnet : env.net = .ok r)
    (hstat : raise_for_status r.status_code = true) :
    fetch_image s env url = (.httpError r.status_code, s) := by
  simp [fetch_image, hnet, hstat]

theorem fetch_image_on_validate_error (s : FetcherState) (env : FetchEnv)
    (url : String) (r : Response) (e : String) (hnet : env.net = .ok r)
    (hstat : raise_for_status r.status_code = false)
    (hval : validate_image_response r = .error e) :
    fetch_image s env url = (.unexpectedError e, s) := by
  simp [fetch_image, hnet, hstat, hval]

theorem fetch_image_on_invalid (s : FetcherState) (env : FetchEnv)
    (url : String) (r : Response) (msg : String) (hnet : env.net = .ok r)
    (hstat : raise_for_status r.status_code = false)
    (hval : validate_image_response r = .ok (false, msg)) :
    fetch_image s env url = (.validationFailed msg, s) := by
  simp [fetch_image, hnet, hstat, hval]

theorem fetch_image_on_duplicate (s : FetcherState) (env : FetchEnv)
    (url : String) (r : Response) (m : String) (hnet : env.net = .ok r)
    (hstat : raise_for_status r.status_code = false)
    (hval : validate_image_response r = .ok (true, m))
    (hmem : md5_hexdigest r.content ∈ s.downloaded_hashes) :
    fetch_image s env url = (.duplicate, s) := by
  simp [fetch_image, hnet, hstat, hval, check_duplicate, hmem]

theorem fetch_image_on_mkdir_fail (s : FetcherState) (env : FetchEnv)
    (url : String) (r : Response) (m : String) (hnet : env.net = .ok r)
    (hstat : raise_for_status r.status_code = false)
    (hval : validate_image_response r = .ok (true, m))
    (hnew : md5_hexdigest r.content ∉ s.downloaded_hashes)
    (hmk : env.mkdirOk = false) :
    fetch_image s env url = (.unexpectedError "OSError: makedirs failed",
      { s with downloaded_hashes := md5_hexdigest r.content :: s.downloaded_hashes }) := by
  simp [fetch_image, hnet, hstat, hval, check_duplicate, hnew, hmk]

theorem fetch_image_on_write_fail (s : FetcherState) (env : FetchEnv)
    (url : String) (r : Response) (m : String) (hnet : env.net = .ok r)
    (hstat : raise_for_status r.status_code = false)
    (hval : validate_image_response r = .ok (true, m))
    (hnew : md5_hexdigest r.content ∉ s.downloaded_hashes)
    (hmk : env.mkdirOk = true) (hwr : env.writeOk = false) :
    fetch_image s env url = (.unexpectedError "OSError: write failed",
      { s with downloaded_hashes := md5_hexdigest r.content :: s.downloaded_hashes }) := by
  simp [fetch_image, hnet, hstat, hval, check_duplicate, hnew, hmk, hwr]

theorem fetch_image_on_success (s : FetcherState) (env : FetchEnv)
    (url : String) (r : Response) (m : String) (hnet : env.net = .ok r)
    (hstat : raise_for_status r.status_code = false)
    (hval : validate_image_response r = .ok (true, m))
    (hnew : md5_hexdigest r.content ∉ s.downloaded_hashes)
    (hmk : env.mkdirOk = true) (hwr : env.writeOk = true) :
    fetch_image s env url =
      (let filename := generate_filename url
          ((headersGet r.headers "content-type").getD "image/jpeg") env.timestamp
       let final := ensure_unique_filename s.files filename
       (.success filename (s.base_dir ++ "/" ++ final),
        { s with downloaded_hashes := md5_hexdigest r.content :: s.downloaded_hashes,
                 files := final :: s.files })) := by
  simp [fetch_image, hnet, hstat, hval, check_duplicate, hnew, hmk, hwr]

/-- No branch of `fetch_image` ever removes a hash from the index. -/
theorem downloaded_hashes_mono (s : FetcherState) (env : FetchEnv)
    (url : String) (h : String) (hmem : h ∈ s.downloaded_hashes) :
    h ∈ (fetch_image s env url).2.downloaded_hashes := by
  cases hnet : env.net with
  | timeout => rw [fetch_image_on_timeout s env url hnet]; exact hmem
  | connectionError =>
    rw [fetch_image_on_connectionError s env url hnet]; exact hmem
  | requestError m =>
    rw [fetch_image_on_requestError s env url m hnet]; exact hmem
  | ok r =>
    cases hstat : raise_for_status r.status_code with
    | true => rw [fetch_image_on_httpError s env url r hnet hstat]; exact hmem
    | false =>
      cases hval : validate_image_response r with
      | error e =>
        rw [fetch_image_on_validate_error s env url r e hnet hstat hval]
        exact hmem
      | ok p =>
        obtain ⟨b, msg⟩ := p
        cases b with
        | false =>
          rw [fetch_image_on_invalid s env url r msg hnet hstat hval]
          exact hmem
        | true =>
          by_cases hdup : md5_hexdigest r.content ∈ s.downloaded_hashes
          · rw [fetch_image_on_duplicate s env url r msg hnet hstat hval hdup]
            exact hmem
          · cases hmk : env.mkdirOk with
            | false =>
              rw [fetch_image_on_mkdir_fail s env url r msg hnet hstat hval
                hdup hmk]
              exact List.mem_cons_of_mem _ hmem
            | true =>
              cases hwr : env.writeOk with
              | false =>
                rw [fetch_image_on_write_fail s env url r msg hnet hstat hval
                  hdup hmk hwr]
                exact List.mem_cons_of_mem _ hmem
              | true =>
                rw [fetch_image_on_success s env url r msg hnet hstat hval
                  hdup hmk hwr]
                exact List.mem_cons_of_mem _ hmem

/-- Once a fetch reaches the duplicate check, the content's hash is in
the index afterwards, whatever the filesystem does. -/
theorem md5_mem_after_fetch (s : FetcherState) (env : FetchEnv)
    (url : String) (r : Response) (m : String) (hnet : env.net = .ok r)
    (hstat : raise_for_status r.status_code = false)
    (hval : validate_image_response r = .ok (true, m)) :
    md5_hexdigest r.content ∈ (fetch_image s env url).2.downloaded_hashes := by
  by_cases hdup : md5_hexdigest r.content ∈ s.downloaded_hashes
  · rw [fetch_image_on_duplicate s env url r m hnet hstat hval hdup]
    exact hdup
  · cases hmk : env.mkdirOk with
    | false =>
      rw [fetch_image_on_mkdir_fail s env url r m hnet hstat hval hdup hmk]
      exact List.mem_cons_self _ _
    | true =>
      cases hwr : env.writeOk with
      | false =>
        rw [fetch_image_on_write_fail s env url r m hnet hstat hval hdup
          hmk hwr]
        exact List.mem_cons_self _ _
      | true =>
        rw [fetch_image_on_success s env url r m hnet hstat hval hdup hmk hwr]
        exact List.mem_cons_self _ _

/-! ## Decimal strings and the collision loop -/

theorem decVal_decDigits (fuel n : Nat) (h : n < fuel) :
    decVal (decDigits fuel n) = n := by
  induction fuel generalizing n with
  | zero => omega
  | succ fuel ih =>
    rw [decDigits]
    by_cases h10 : n < 10
    · simp [h10, decVal]
    · rw [if_neg h10]
      have hdiv : n / 10 < fuel := by
        have : n / 10 < n := Nat.div_lt_self (by omega) (by omega)
        omega
      simp only [decVal, ih _ hdiv]
      omega

theorem decDigits_lt_ten (fuel n : Nat) : ∀ d ∈ decDigits fuel n, d < 10 := by
  induction fuel generalizing n with
  | zero => simp [decDigits]
  | succ fuel ih =>
    rw [decDigits]
    by_cases h10 : n < 10
    · rw [if_pos h10]
      intro d hd
      rw [List.mem_singleton] at hd
      omega
    · rw [if_neg h10]
      intro d hd
      rcases List.mem_cons.mp hd with rfl | hd
      · omega
      · exact ih _ _ hd

theorem decDigitChar_inj (d1 d2 : Nat) (h1 : d1 < 10) (h2 : d2 < 10)
    (h : decDigitChar d1 = decDigitChar d2) : d1 = d2 := by
  interval_cases d1 <;> interval_cases d2 <;> revert h <;> decide

theorem map_decDigitChar_inj (l1 : List Nat) : ∀ l2 : List Nat,
    (∀ d ∈ l1, d < 10) → (∀ d ∈ l2, d < 10) →
    l1.map decDigitChar = l2.map decDigitChar → l1 = l2 := by
  induction l1 with
  | nil =>
    intro l2 _ _ h
    cases l2 with
    | nil => rfl
    | cons e l2 => simp at h
  | cons d l1 ih =>
    intro l2 h1 h2 h
    cases l2 with
    | nil => simp at h
    | cons e l2 =>
      simp only [List.map_cons, List.cons.injEq] at h
      have hd : d = e :=
        decDigitChar_inj d e (h1 d (by simp)) (h2 e (by simp)) h.1
      rw [hd,
        ih l2 (fun x hx => h1 x (by simp [hx])) (fun x hx => h2 x (by simp [hx]))
          h.2]

theorem decStr_inj (m n : Nat) (h : decStr m = decStr n) : m = n := by
  have hd : ((decDigits (m + 1) m).reverse).map decDigitChar =
      ((decDigits (n + 1) n).reverse).map decDigitChar := by
    simpa [decStr] using congrArg String.data h
  have hrev : (decDigits (m + 1) m).reverse = (decDigits (n + 1) n).reverse :=
    map_decDigitChar_inj _ _
      (fun d hdm => decDigits_lt_ten _ _ d (List.mem_reverse.mp hdm))
      (fun d hdn => decDigits_lt_ten _ _ d (List.mem_reverse.mp hdn)) hd
  have hdig : decDigits (m + 1) m = decDigits (n + 1) n :=
    List.reverse_injective hrev
  have hm := decVal_decDigits (m + 1) m (by omega)
  rw [hdig, decVal_decDigits (n + 1) n (by omega)] at hm
  omega

theorem candName_inj (stem ext : String) (j k : Nat)
    (h : candName stem ext j = candName stem ext k) : j = k := by
  have hd := congrArg String.data h
  simp only [candName, String.data_append, List.append_assoc] at hd
  have h1 := List.append_cancel_left hd
  have h2 := List.append_cancel_left h1
  have h3 : (decStr j).data = (decStr k).data := List.append_cancel_right h2
  exact decStr_inj j k (congrArg String.mk h3)

theorem exists_free_candName (files : List String) (stem ext : String)
    (k : Nat) :
    ∃ j, k ≤ j ∧ j < k + files.length + 1 ∧ candName stem ext j ∉ files := by
  by_contra hcon
  push_neg at hcon
  have hmaps : ∀ j ∈ Finset.Ico k (k + files.length + 1),
      candName stem ext j ∈ files.toFinset := by
    intro j hj
    rcases Finset.mem_Ico.mp hj with ⟨hj1, hj2⟩
    rw [List.mem_toFinset]
    exact hcon j hj1 hj2
  have hinj : Set.InjOn (candName stem ext)
      (Finset.Ico k (k + files.length + 1)) := by
    intro a _ b _ hab
    exact candName_inj stem ext a b hab
  have hcard := Finset.card_le_card_of_injOn _ hmaps hinj
  rw [Nat.card_Ico] at hcard
  have hfin := files.toFinset_card_le
  omega

theorem uniqueNameLoop_spec (files : List String) (stem ext : String) :
    ∀ fuel k, (∃ j, k ≤ j ∧ j < k + fuel ∧ candName stem ext j ∉ files) →
      uniqueNameLoop files stem ext fuel k ∉ files ∧
      ∃ j, k ≤ j ∧ uniqueNameLoop files stem ext fuel k = candName stem ext j ∧
        (∀ i, k ≤ i → i < j → candName stem ext i ∈ files) := by
  intro fuel
  induction fuel with
  | zero =>
    intro k hex
    obtain ⟨j, h1, h2, _⟩ := hex
    omega
  | succ fuel ih =>
    intro k hex
    by_cases hmem : candName stem ext k ∈ files
    · have hex2 : ∃ j, k + 1 ≤ j ∧ j < k + 1 + fuel ∧
          candName stem ext j ∉ files := by
        obtain ⟨j, h1, h2, h3⟩ := hex
        refine ⟨j, ?_, by omega, h3⟩
        rcases Nat.eq_or_lt_of_le h1 with rfl | hlt
        · exact absurd hmem h3
        · omega
      obtain ⟨hnot, j, hj1, hj2, hj3⟩ := ih (k + 1) hex2
      have hred : uniqueNameLoop files stem ext (fuel + 1) k =
          uniqueNameLoop files stem ext fuel (k + 1) := by
        simp only [uniqueNameLoop]
        rw [if_pos (show stem ++ "_" ++ decStr k ++ ext ∈ files from hmem)]
      rw [hred]
      refine ⟨hnot, j, by omega, hj2, ?_⟩
      intro i hi1 hi2
      rcases Nat.eq_or_lt_of_le hi1 with rfl | hlt
      · exact hmem
      · exact hj3 i (by omega) hi2
    · have hred : uniqueNameLoop files stem ext (fuel + 1) k =
          candName stem ext k := by
        simp only [uniqueNameLoop]
        rw [if_neg (show ¬ stem ++ "_" ++ decStr k ++ ext ∈ files from hmem)]
        rfl
      rw [hred]
      exact ⟨hmem, k, le_refl k, rfl,
        fun i hi1 hi2 => absurd hi2 (Nat.not_lt.mpr hi1)⟩

theorem ensure_unique_filename_spec (files : List String) (filename : String) :
    ensure_unique_filename files filename ∉ files ∧
    (filename ∉ files → ensure_unique_filename files filename = filename) ∧
    (filename ∈ files → ∃ k, 1 ≤ k ∧
      ensure_unique_filename files filename =
        candName (pathStem filename) (pathSuffix filename) k ∧
      ∀ i, 1 ≤ i → i < k →
        candName (pathStem filename) (pathSuffix filename) i ∈ files) := by
  by_cases hmem : filename ∈ files
  · have hex := exists_free_candName files (pathStem filename)
      (pathSuffix filename) 1
    have hspec := uniqueNameLoop_spec files (pathStem filename)
      (pathSuffix filename) (files.length + 1) 1 (by
        obtain ⟨j, h1, h2, h3⟩ := hex
        exact ⟨j, h1, by omega, h3⟩)
    rw [ensure_unique_filename, if_pos hmem]
    obtain ⟨hnot, j, hj1, hj2, hj3⟩ := hspec
    exact ⟨hnot, fun h => absurd hmem h, fun _ => ⟨j, hj1, hj2, hj3⟩⟩
  · rw [ensure_unique_filename, if_neg hmem]
    exact ⟨hmem, fun _ => rfl, fun h => absurd h hmem⟩

/-! ## Validation lemmas -/

/-- Prefix testing is unaffected by truncation at the first `;` when the
pattern contains no `;` (this connects the code's check on the full
header value with the spec's "before any `;` parameters" phrasing). -/
theorem isPrefixOf_takeWhile_ne_semi (p : List Char) :
    ∀ l : List Char, (∀ c ∈ p, ¬ c = ';') →
      p.isPrefixOf (l.takeWhile (fun c => c ≠ ';')) = p.isPrefixOf l := by
  intro l
  induction l generalizing p with
  | nil => intro _; rfl
  | cons x xs ih =>
    intro hp
    by_cases hx : x = ';'
    · subst hx
      cases p with
      | nil => simp [List.isPrefixOf]
      | cons c p =>
        have hc : ¬ c = ';' := hp c (by simp)
        rw [List.takeWhile_cons, if_neg (by simp)]
        simp [List.isPrefixOf, beq_iff_eq, hc]
    · cases p with
      | nil => simp [List.isPrefixOf]
      | cons c p =>
        have hrec := ih p (fun d hd => hp d (by simp [hd]))
        rw [List.takeWhile_cons, if_pos (by simpa using hx)]
        simp only [List.isPrefixOf]
        rw [hrec]

/-- Prefix testing is unaffected by `take n` when the pattern is no
longer than `n` (this connects the code's check on the first ten body
bytes with the spec's "leading bytes" phrasing). -/
theorem isPrefixOf_take (p : List Byte) :
    ∀ (l : List Byte) (n : Nat), p.length ≤ n →
      p.isPrefixOf (l.take n) = p.isPrefixOf l := by
  induction p with
  | nil => intro l n _; simp [List.isPrefixOf]
  | cons c p ih =>
    intro l n hn
    cases n with
    | zero => simp at hn
    | succ n =>
      cases l with
      | nil => rfl
      | cons x xs =>
        have hrec := ih xs n (by simpa using hn)
        simp [List.take, List.isPrefixOf, hrec]

/-- The spec's content-type condition coincides with the code's check on
the lowercased full header value. -/
theorem claim_ctype_iff (r : Response) :
    claim_ctype_ok r ↔
      pyStartswith (pyLower ((headersGet r.headers "content-type").getD ""))
        "image/" = true := by
  have hp : ∀ c ∈ "image/".data, ¬ c = ';' := by decide
  constructor
  · rintro ⟨ct, hct, hsw⟩
    rw [hct]
    rw [pyStartswith, splitSemiHead] at hsw
    rw [pyStartswith]
    rw [isPrefixOf_takeWhile_ne_semi _ _ hp] at hsw
    exact hsw
  · intro hsw
    cases hh : headersGet r.headers "content-type" with
    | none =>
      rw [hh] at hsw
      simp [pyStartswith, pyLower] at hsw
    | some ct =>
      rw [hh] at hsw
      refine ⟨ct, hh, ?_⟩
      rw [pyStartswith, splitSemiHead]
      rw [isPrefixOf_takeWhile_ne_semi _ _ hp]
      exact hsw

/-- The spec's signature condition coincides with the code's check on
the first ten bytes. -/
theorem claim_sig_iff (r : Response) :
    claim_sig_ok r ↔
      image_signatures.any (fun sig => sig.isPrefixOf (r.content.take 10)) =
        true := by
  have hlen : ∀ sig ∈ image_signatures, sig.length ≤ 10 := by decide
  rw [claim_sig_ok, List.any_eq_true]
  constructor
  · rintro ⟨sig, hmem, hpre⟩
    exact ⟨sig, hmem, by rw [isPrefixOf_take _ _ _ (hlen sig hmem)]; exact hpre⟩
  · rintro ⟨sig, hmem, hpre⟩
    exact ⟨sig, hmem, by rw [isPrefixOf_take _ _ _ (hlen sig hmem)] at hpre; exact hpre⟩

theorem pyInt_empty : pyInt "" = none := by decide

/-! ## Claim theorems -/

/-- Claim C2 (amended): validation accepts a response exactly when the
content-type header is present and begins with `image/`
(case-insensitively, before any `;` parameters), the declared
content-length (when present) does not exceed 50 MiB, and the leading
body bytes match one of the known signatures; a failing check
short-circuits the rest and returns `False` with a message identifying
the check — all under the proviso that every present, non-empty
content-length value parses as an integer (a malformed value instead
raises `ValueError` from `int()`, see the counterexample theorem). -/
theorem C2_validate_characterization (r : Response) (hw : cl_wellformed r) :
    (validate_image_response r = .ok (true, "Valid image") ↔
      claim_ctype_ok r ∧ claim_size_ok r ∧ claim_sig_ok r) ∧
    (¬ claim_ctype_ok r → validate_image_response r = .ok (false,
      "Content-Type \x27" ++
        pyLower ((headersGet r.headers "content-type").getD "") ++
        "\x27 is not an image type")) ∧
    (claim_ctype_ok r → ¬ claim_size_ok r → validate_image_response r =
      .ok (false, "Image too large (>50MB) - skipping for safety")) ∧
    (claim_ctype_ok r → claim_size_ok r → ¬ claim_sig_ok r →
      validate_image_response r =
        .ok (false, "Content doesn\x27t appear to be a valid image")) := by
  by_cases hA : pyStartswith
      (pyLower ((headersGet r.headers "content-type").getD "")) "image/" = true
  case neg =>
    have hA' : pyStartswith
        (pyLower ((headersGet r.headers "content-type").getD "")) "image/" =
        false := by
      simpa using hA
    have hct : ¬ claim_ctype_ok r := fun hc => hA ((claim_ctype_iff r).mp hc)
    have hv : validate_image_response r = .ok (false,
        "Content-Type \x27" ++
          pyLower ((headersGet r.headers "content-type").getD "") ++
          "\x27 is not an image type") := by
      simp [validate_image_response, hA']
    refine ⟨⟨?_, ?_⟩, fun _ => hv, fun hc => absurd hc hct,
      fun hc _ => absurd hc hct⟩
    · intro h
      rw [hv] at h
      simp at h
    · rintro ⟨hc, -, -⟩
      exact absurd hc hct
  case pos =>
    have hct : claim_ctype_ok r := (claim_ctype_iff r).mpr hA
    by_cases hcl0 : (headersGet r.headers "content-length").getD "" = ""
    · have hsize : claim_size_ok r := by
        intro cl n hcl hpi
        rw [hcl] at hcl0
        simp at hcl0
        subst hcl0
        rw [pyInt_empty] at hpi
        cases hpi
      cases hB : image_signatures.any
          (fun sig => sig.isPrefixOf (r.content.take 10)) with
      | true =>
        have hsig : claim_sig_ok r := (claim_sig_iff r).mpr hB
        have hv : validate_image_response r = .ok (true, "Valid image") := by
          simp [validate_image_response, hA, hcl0, hB]
        exact ⟨⟨fun _ => ⟨hct, hsize, hsig⟩, fun _ => hv⟩,
          fun hnc => absurd hct hnc, fun _ hns => absurd hsize hns,
          fun _ _ hnsig => absurd hsig hnsig⟩
      | false =>
        have hnsig : ¬ claim_sig_ok r := by
          rw [claim_sig_iff, hB]
          simp
        have hv : validate_image_response r =
            .ok (false, "Content doesn\x27t appear to be a valid image") := by
          simp [validate_image_response, hA, hcl0, hB]
        refine ⟨⟨?_, ?_⟩, fun hnc => absurd hct hnc,
          fun _ hns => absurd hsize hns, fun _ _ _ => hv⟩
        · intro h
          rw [hv] at h
          simp at h
        · rintro ⟨-, -, hsig⟩
          exact absurd hsig hnsig
    · have hsome : headersGet r.headers "content-length" =
          some ((headersGet r.headers "content-length").getD "") := by
        cases hh : headersGet r.headers "content-length" with
        | none =>
          rw [hh] at hcl0
          simp at hcl0
        | some cl => simp
      obtain ⟨n, hn⟩ := Option.isSome_iff_exists.mp (hw _ hsome hcl0)
      by_cases hbig : n > 50 * 1024 * 1024
      · have hnsize : ¬ claim_size_ok r := fun hs =>
          absurd (hs _ n hsome hn) (by omega)
        have hv : validate_image_response r =
            .ok (false, "Image too large (>50MB) - skipping for safety") := by
          simp only [validate_image_response, hA, hcl0, hn]
          simp
          exact fun h => absurd h (by omega)
        refine ⟨⟨?_, ?_⟩, fun hnc => absurd hct hnc, fun _ _ => hv,
          fun _ hs _ => absurd hs hnsize⟩
        · intro h
          rw [hv] at h
          simp at h
        · rintro ⟨-, hs, -⟩
          exact absurd hs hnsize
      · have hsize : claim_size_ok r := by
          intro cl n2 hcl hpi
          rw [hsome] at hcl
          injection hcl with hcl
          rw [← hcl, hn] at hpi
          injection hpi with hpi
          omega
        cases hB : image_signatures.any
            (fun sig => sig.isPrefixOf (r.content.take 10)) with
        | true =>
          have hsig : claim_sig_ok r := (claim_sig_iff r).mpr hB
          have hv : validate_image_response r = .ok (true, "Valid image") := by
            simp [validate_image_response, hA, hcl0, hn, hbig, hB]
            omega
          exact ⟨⟨fun _ => ⟨hct, hsize, hsig⟩, fun _ => hv⟩,
            fun hnc => absurd hct hnc, fun _ hns => absurd hsize hns,
            fun _ _ hnsig => absurd hsig hnsig⟩
        | false =>
          have hnsig : ¬ claim_sig_ok r := by
            rw [claim_sig_iff, hB]
            simp
          have hv : validate_image_response r =
              .ok (false, "Content doesn\x27t appear to be a valid image") := by
            simp [validate_image_response, hA, hcl0, hn, hbig, hB]
            omega
          refine ⟨⟨?_, ?_⟩, fun hnc => absurd hct hnc,
            fun _ hns => absurd hsize hns, fun _ _ _ => hv⟩
          · intro h
            rw [hv] at h
            simp at h
          · rintro ⟨-, -, hsig⟩
            exact absurd hsig hnsig

/-- Claim C2 counterexample: the claim as stated says a failed check
"returns False ... without raising", but a present, malformed
content-length value makes `int(content_length)` raise `ValueError`
inside `_validate_image_response` instead of returning `False`. -/
theorem C2_counterexample :
    validate_image_response
      { status_code := 200,
        headers := [("Content-Type", "image/jpeg"), ("Content-Length", "abc")],
        content := [0xFF, 0xD8, 0xFF] } =
      .error "ValueError: invalid literal for int() with base 10: \x27abc\x27" := by
  rfl

/-- Claim C2 witness: the characterization evaluated on the reference
JPEG response, whose content-length header is the well-formed "8". -/
theorem C2_witness :
    validate_image_response exJpeg = .ok (true, "Valid image") ∧
    claim_ctype_ok exJpeg ∧ claim_size_ok exJpeg ∧ claim_sig_ok exJpeg := by
  have hw : cl_wellformed exJpeg := by
    intro cl hcl hne
    have h2 : headersGet exJpeg.headers "content-length" = some "8" := rfl
    rw [h2] at hcl
    injection hcl with h
    subst h
    decide
  have hmain := C2_validate_characterization exJpeg hw
  have hv : validate_image_response exJpeg = .ok (true, "Valid image") := rfl
  exact ⟨hv, hmain.1.mp hv⟩

/-- Claim C1: once a fetch of some byte content has reached the
duplicate check (its response was no 4xx/5xx and passed validation), a
later fetch in the same run whose response carries byte-identical
content — whatever its URL — is reported as a duplicate and leaves the
state untouched: no second file is written and the hash is not
re-added. -/
theorem C1_second_identical_fetch_is_duplicate
    (s : FetcherState) (env1 env2 : FetchEnv) (url1 url2 : String)
    (r1 r2 : Response) (m1 m2 : String)
    (hnet1 : env1.net = .ok r1) (hnet2 : env2.net = .ok r2)
    (hstat1 : raise_for_status r1.status_code = false)
    (hstat2 : raise_for_status r2.status_code = false)
    (hval1 : validate_image_response r1 = .ok (true, m1))
    (hval2 : validate_image_response r2 = .ok (true, m2))
    (hsame : r2.content = r1.content) :
    fetch_image (fetch_image s env1 url1).2 env2 url2 =
      (.duplicate, (fetch_image s env1 url1).2) := by
  have hmem := md5_mem_after_fetch s env1 url1 r1 m1 hnet1 hstat1 hval1
  rw [← hsame] at hmem
  exact fetch_image_on_duplicate _ env2 url2 r2 m2 hnet2 hstat2 hval2 hmem

/-- Claim C1 witness: the spec's mirror scenario — the same JPEG bytes
fetched from two different URLs; the second fetch reports a duplicate
and changes nothing. -/
theorem C1_witness :
    validate_image_response exJpeg = .ok (true, "Valid image") ∧
    validate_image_response exJpegMirror = .ok (true, "Valid image") ∧
    fetch_image
        (fetch_image exState (exEnv exJpeg) "http://example.com/photo.jpg").2
        (exEnv exJpegMirror) "http://mirror.example.com/pic.jpg" =
      (.duplicate,
       (fetch_image exState (exEnv exJpeg) "http://example.com/photo.jpg").2) :=
  ⟨rfl, rfl,
   C1_second_identical_fetch_is_duplicate exState (exEnv exJpeg)
     (exEnv exJpegMirror) "http://example.com/photo.jpg"
     "http://mirror.example.com/pic.jpg" exJpeg exJpegMirror
     "Valid image" "Valid image" rfl rfl rfl rfl rfl rfl rfl⟩

/-- Claim C3: a response declaring a content-length above 50 MiB is
rejected as a validation failure (whether the content-type check or the
size check fires first) and the state is unchanged — no file write and
no hash insertion, so the persist branch is unreachable. -/
theorem C3_oversize_rejected (s : FetcherState) (env : FetchEnv)
    (url : String) (r : Response) (cl : String) (n : Int)
    (hnet : env.net = .ok r)
    (hstat : raise_for_status r.status_code = false)
    (hcl : headersGet r.headers "content-length" = some cl)
    (hn : pyInt cl = some n) (hbig : 50 * 1024 * 1024 < n) :
    ∃ msg, fetch_image s env url = (.validationFailed msg, s) := by
  have hne : ¬ cl = "" := by
    intro h
    rw [h, pyInt_empty] at hn
    cases hn
  have hget : (headersGet r.headers "content-length").getD "" = cl := by
    rw [hcl]
    rfl
  by_cases hA : pyStartswith
      (pyLower ((headersGet r.headers "content-type").getD "")) "image/" = true
  · have hv : validate_image_response r =
        .ok (false, "Image too large (>50MB) - skipping for safety") := by
      simp only [validate_image_response, hA, hget, hn]
      simp [hne]
      exact fun h => absurd h (by omega)
    exact ⟨_, fetch_image_on_invalid s env url r _ hnet hstat hv⟩
  · have hA' : pyStartswith
        (pyLower ((headersGet r.headers "content-type").getD "")) "image/" =
        false := by
      simpa using hA
    have hv : validate_image_response r = .ok (false,
        "Content-Type \x27" ++
          pyLower ((headersGet r.headers "content-type").getD "") ++
          "\x27 is not an image type") := by
      simp [validate_image_response, hA']
    exact ⟨_, fetch_image_on_invalid s env url r _ hnet hstat hv⟩

/-- Claim C3 witness: a declared content-length of 99999999 bytes is
rejected and the state survives unchanged. -/
theorem C3_witness :
    pyInt "99999999" = some 99999999 ∧
    (∃ msg, fetch_image exState (exEnv exBig) "http://example.com/big.jpg" =
      (.validationFailed msg, exState)) :=
  ⟨by decide,
   C3_oversize_rejected exState (exEnv exBig) "http://example.com/big.jpg"
     exBig "99999999" 99999999 rfl rfl rfl (by decide) (by decide)⟩

/-- Claim C4 counterexample: the claim as stated covers every non-2xx
status, but a 304 response is not reported as an HTTP-status error —
requests' `raise_for_status` raises only for 4xx/5xx, so the fetch
proceeds to validation and fails there instead. -/
theorem C4_counterexample :
    fetch_image exState (exEnv ex304) "http://example.com/a.jpg" =
      (.validationFailed "Content-Type \x27\x27 is not an image type",
       exState) ∧
    (fetch_image exState (exEnv ex304) "http://example.com/a.jpg").1 ≠
      .httpError 304 := by
  exact ⟨rfl, by decide⟩

/-- Claim C4 (amended): for every response whose status code lies in
400..599 — exactly the codes for which requests' `raise_for_status`
raises `HTTPError` — the fetch fails with an HTTP-status outcome
carrying that code; the outcome is a different constructor from the
network-level failures. -/
theorem C4_http_error_reported (s : FetcherState) (env : FetchEnv)
    (url : String) (r : Response) (hnet : env.net = .ok r)
    (h4 : 400 ≤ r.status_code) (h6 : r.status_code < 600) :
    fetch_image s env url = (.httpError r.status_code, s) ∧
    FetchOutcome.httpError r.status_code ≠ .timeout ∧
    FetchOutcome.httpError r.status_code ≠ .connectionError := by
  have hstat : raise_for_status r.status_code = true := by
    simp [raise_for_status]
    omega
  exact ⟨fetch_image_on_httpError s env url r hnet hstat, by simp, by simp⟩

/-- Claim C4 witness: a 404 response yields the HTTP-status outcome with
code 404. -/
theorem C4_witness :
    400 ≤ ex404.status_code ∧ ex404.status_code < 600 ∧
    fetch_image exState (exEnv ex404) "http://example.com/gone.jpg" =
      (.httpError 404, exState) :=
  ⟨by decide, by decide,
   (C4_http_error_reported exState (exEnv ex404) "http://example.com/gone.jpg"
     ex404 rfl (by decide) (by decide)).1⟩

/-- Claim C5: every anticipated failure category of one fetch —
timeout, connection error, HTTP error, raised validation error,
validation failure, duplicate, and I/O failure of directory creation or
file write — is caught and converted into a reported outcome of the
total function `fetch_image`; none escapes. -/
theorem C5_failures_reported (s : FetcherState) (env : FetchEnv)
    (url : String) :
    (env.net = .timeout → fetch_image s env url = (.timeout, s)) ∧
    (env.net = .connectionError →
      fetch_image s env url = (.connectionError, s)) ∧
    (∀ m, env.net = .requestError m →
      fetch_image s env url = (.requestError m, s)) ∧
    (∀ r, env.net = .ok r → raise_for_status r.status_code = true →
      fetch_image s env url = (.httpError r.status_code, s)) ∧
    (∀ r e, env.net = .ok r → raise_for_status r.status_code = false →
      validate_image_response r = .error e →
      fetch_image s env url = (.unexpectedError e, s)) ∧
    (∀ r msg, env.net = .ok r → raise_for_status r.status_code = false →
      validate_image_response r = .ok (false, msg) →
      fetch_image s env url = (.validationFailed msg, s)) ∧
    (∀ r msg, env.net = .ok r → raise_for_status r.status_code = false →
      validate_image_response r = .ok (true, msg) →
      md5_hexdigest r.content ∈ s.downloaded_hashes →
      fetch_image s env url = (.duplicate, s)) ∧
    (∀ r msg, env.net = .ok r → raise_for_status r.status_code = false →
      validate_image_response r = .ok (true, msg) →
      md5_hexdigest r.content ∉ s.downloaded_hashes →
      (env.mkdirOk = false ∨ env.writeOk = false) →
      ∃ em, (fetch_image s env url).1 = .unexpectedError em) := by
  refine ⟨fetch_image_on_timeout s env url,
    fetch_image_on_connectionError s env url,
    fun m h => fetch_image_on_requestError s env url m h,
    fun r h1 h2 => fetch_image_on_httpError s env url r h1 h2,
    fun r e h1 h2 h3 => fetch_image_on_validate_error s env url r e h1 h2 h3,
    fun r msg h1 h2 h3 => fetch_image_on_invalid s env url r msg h1 h2 h3,
    fun r msg h1 h2 h3 h4 =>
      fetch_image_on_duplicate s env url r msg h1 h2 h3 h4,
    ?_⟩
  intro r msg h1 h2 h3 h4 hio
  cases hmk : env.mkdirOk with
  | false =>
    exact ⟨_, by
      rw [fetch_image_on_mkdir_fail s env url r msg h1 h2 h3 h4 hmk]⟩
  | true =>
    have hwr : env.writeOk = false := by
      rcases hio with h | h
      · rw [hmk] at h
        cases h
      · exact h
    exact ⟨_, by
      rw [fetch_image_on_write_fail s env url r msg h1 h2 h3 h4 hmk hwr]⟩

/-- Claim C5 witness: the timeout category, applied concretely. -/
theorem C5_witness :
    ({ net := .timeout, timestamp := 0, mkdirOk := true,
       writeOk := true } : FetchEnv).net = .timeout ∧
    fetch_image exState
        { net := .timeout, timestamp := 0, mkdirOk := true, writeOk := true }
        "http://example.com/x.jpg" = (.timeout, exState) :=
  ⟨rfl,
   (C5_failures_reported exState
     { net := .timeout, timestamp := 0, mkdirOk := true, writeOk := true }
     "http://example.com/x.jpg").1 rfl⟩

/-- Claim C9: when the request times out, the fetch reports the timeout
outcome and returns the state unchanged — no file is written and the
hash index is exactly as before, since the exception is raised before
the duplicate check runs. -/
theorem C9_timeout_state_unchanged (s : FetcherState) (env : FetchEnv)
    (url : String) (h : env.net = .timeout) :
    fetch_image s env url = (.timeout, s) :=
  fetch_image_on_timeout s env url h

/-- Claim C9 witness: a timed-out fetch over the empty fetcher state. -/
theorem C9_witness :
    ({ net := .timeout, timestamp := 7, mkdirOk := true,
       writeOk := true } : FetchEnv).net = .timeout ∧
    fetch_image exState
        { net := .timeout, timestamp := 7, mkdirOk := true, writeOk := true }
        "http://example.com/slow.jpg" = (.timeout, exState) :=
  ⟨rfl,
   C9_timeout_state_unchanged exState
     { net := .timeout, timestamp := 7, mkdirOk := true, writeOk := true }
     "http://example.com/slow.jpg" rfl⟩

/-- Claim C6 (amended): filename derivation is the last URL path
segment when that segment is non-empty and contains a dot; otherwise
`{domain}_{timestamp}{extension}`, where `domain` is the host with
every occurrence of the substring `www.` removed (not only a leading
one — `str.replace` replaces all occurrences), the extension comes from
the MIME mapping of the declared content-type with fallback `.jpg`, and
the result is sanitized to alphanumerics, `.`, `-` and `_`. -/
theorem C6_filename_derivation (url content_type : String)
    (timestamp : Nat) :
    generate_filename url content_type timestamp =
      spec_filename url content_type timestamp := by
  unfold generate_filename spec_filename
  by_cases he : osBasename (urlparse url).path = ""
  · simp [he]
  · by_cases hm : '.' ∈ (osBasename (urlparse url).path).data
    · simp [he, hm]
    · simp [he, hm]

/-- Claim C6 counterexample: the original claim says only a LEADING
`www.` is stripped from the host, but `"x.www.org".replace("www.", "")`
removes the inner occurrence too: the code yields `x.org_1000.png`
where the claimed rule yields `x.www.org_1000.png`. -/
theorem C6_counterexample :
    generate_filename "http://x.www.org/" "image/png" 1000 =
      "x.org_1000.png" ∧
    claimed_filename "http://x.www.org/" "image/png" 1000 =
      "x.www.org_1000.png" ∧
    generate_filename "http://x.www.org/" "image/png" 1000 ≠
      claimed_filename "http://x.www.org/" "image/png" 1000 := by
  exact ⟨by decide, by decide, by decide⟩

/-- Claim C7: collision resolution never targets an existing file: the
resolved name is not among the directory's files; a free base name is
kept as is; an occupied base name resolves, first-fit from counter 1,
to `{stem}_{k}{ext}` with every earlier candidate occupied; and in
particular when `{stem}_1{ext}` is free the second file gets exactly
that `_1` name. -/
theorem C7_collision_resolution (files : List String) (filename : String) :
    ensure_unique_filename files filename ∉ files ∧
    (filename ∉ files → ensure_unique_filename files filename = filename) ∧
    (filename ∈ files →
      ∃ k, 1 ≤ k ∧
        ensure_unique_filename files filename =
          candName (pathStem filename) (pathSuffix filename) k ∧
        (∀ i, 1 ≤ i → i < k →
          candName (pathStem filename) (pathSuffix filename) i ∈ files)) ∧
    (filename ∈ files →
      candName (pathStem filename) (pathSuffix filename) 1 ∉ files →
      ensure_unique_filename files filename =
        candName (pathStem filename) (pathSuffix filename) 1) := by
  obtain ⟨h1, h2, h3⟩ := ensure_unique_filename_spec files filename
  refine ⟨h1, h2, h3, ?_⟩
  intro hmem hfree
  obtain ⟨k, hk1, hk2, hk3⟩ := h3 hmem
  rcases Nat.eq_or_lt_of_le hk1 with heq | hlt
  · rw [hk2, ← heq]
  · exact absurd (hk3 1 (le_refl 1) hlt) hfree

/-- Claim C7 witness: a second image whose base name `photo.jpg` is
taken resolves to `photo_1.jpg`. -/
theorem C7_witness :
    "photo.jpg" ∈ ["photo.jpg"] ∧
    candName (pathStem "photo.jpg") (pathSuffix "photo.jpg") 1 ∉
      ["photo.jpg"] ∧
    ensure_unique_filename ["photo.jpg"] "photo.jpg" =
      candName (pathStem "photo.jpg") (pathSuffix "photo.jpg") 1 ∧
    candName (pathStem "photo.jpg") (pathSuffix "photo.jpg") 1 =
      "photo_1.jpg" :=
  ⟨by decide, by decide,
   (C7_collision_resolution ["photo.jpg"] "photo.jpg").2.2.2 (by decide)
     (by decide),
   by decide⟩

/-- Claim C8: the hash index only grows during a run — no fetch removes
an entry — and it is never persisted: construction rebuilds it from the
storage directory, and a missing directory yields the empty index with
no error (construction is total). -/
theorem C8_hash_index_monotone :
    (∀ s env url h, h ∈ s.downloaded_hashes →
      h ∈ (fetch_image s env url).2.downloaded_hashes) ∧
    (∀ bd, (init_fetcher bd none).downloaded_hashes = []) ∧
    (∀ bd dir, (init_fetcher bd dir).downloaded_hashes =
      load_existing_hashes dir) :=
  ⟨fun s env url h hmem => downloaded_hashes_mono s env url h hmem,
   fun _ => rfl, fun _ _ => rfl⟩

/-- Claim C8 witness: a pre-existing hash survives a successful fetch,
and construction over a missing directory starts empty. -/
theorem C8_witness :
    "deadbeef" ∈ (FetcherState.mk "d" ["deadbeef"] []).downloaded_hashes ∧
    "deadbeef" ∈ (fetch_image (FetcherState.mk "d" ["deadbeef"] [])
      (exEnv exJpeg) "http://example.com/photo.jpg").2.downloaded_hashes ∧
    (init_fetcher "Fetched_Images" none).downloaded_hashes = [] :=
  ⟨by decide,
   C8_hash_index_monotone.1 (FetcherState.mk "d" ["deadbeef"] [])
     (exEnv exJpeg) "http://example.com/photo.jpg" "deadbeef" (by decide),
   C8_hash_index_monotone.2.1 "Fetched_Images"⟩

/-- Claim C10: when the duplicate check inserts a new hash but the
directory creation or the file write then fails, the fetch reports an
unexpected-error outcome, no file is recorded, and the hash stays in
the index — so a later fetch of byte-identical content is reported as a
duplicate and never stored, although no file with those bytes exists. -/
theorem C10_hash_retained_on_io_failure
    (s : FetcherState) (env1 env2 : FetchEnv) (url1 url2 : String)
    (r1 r2 : Response) (m1 m2 : String)
    (hnet1 : env1.net = .ok r1)
    (hstat1 : raise_for_status r1.status_code = false)
    (hval1 : validate_image_response r1 = .ok (true, m1))
    (hnew : md5_hexdigest r1.content ∉ s.downloaded_hashes)
    (hio : env1.mkdirOk = false ∨ env1.writeOk = false)
    (hnet2 : env2.net = .ok r2)
    (hstat2 : raise_for_status r2.status_code = false)
    (hval2 : validate_image_response r2 = .ok (true, m2))
    (hsame : r2.content = r1.content) :
    (∃ em, (fetch_image s env1 url1).1 = .unexpectedError em) ∧
    md5_hexdigest r1.content ∈
      (fetch_image s env1 url1).2.downloaded_hashes ∧
    (fetch_image s env1 url1).2.files = s.files ∧
    fetch_image (fetch_image s env1 url1).2 env2 url2 =
      (.duplicate, (fetch_image s env1 url1).2) := by
  have hdup2 : ∀ t : FetcherState,
      md5_hexdigest r2.content ∈ t.downloaded_hashes →
      fetch_image t env2 url2 = (.duplicate, t) := fun t hmem =>
    fetch_image_on_duplicate t env2 url2 r2 m2 hnet2 hstat2 hval2 hmem
  cases hmk : env1.mkdirOk with
  | false =>
    rw [fetch_image_on_mkdir_fail s env1 url1 r1 m1 hnet1 hstat1 hval1
      hnew hmk]
    exact ⟨⟨_, rfl⟩, List.mem_cons_self _ _, rfl,
      hdup2 _ (by rw [hsame]; exact List.mem_cons_self _ _)⟩
  | true =>
    have hwr : env1.writeOk = false := by
      rcases hio with h | h
      · rw [hmk] at h
        cases h
      · exact h
    rw [fetch_image_on_write_fail s env1 url1 r1 m1 hnet1 hstat1 hval1
      hnew hmk hwr]
    exact ⟨⟨_, rfl⟩, List.mem_cons_self _ _, rfl,
      hdup2 _ (by rw [hsame]; exact List.mem_cons_self _ _)⟩

/-- Claim C10 witness: a failing write after a fresh hash insertion,
followed by a byte-identical fetch that is reported as a duplicate. -/
theorem C10_witness :
    md5_hexdigest exJpeg.content ∉ exState.downloaded_hashes ∧
    ((∃ em, (fetch_image exState exEnvWriteFail
        "http://example.com/photo.jpg").1 = .unexpectedError em) ∧
      md5_hexdigest exJpeg.content ∈
        (fetch_image exState exEnvWriteFail
          "http://example.com/photo.jpg").2.downloaded_hashes ∧
      (fetch_image exState exEnvWriteFail
        "http://example.com/photo.jpg").2.files = exState.files ∧
      fetch_image (fetch_image exState exEnvWriteFail
          "http://example.com/photo.jpg").2 (exEnv exJpegMirror)
          "http://mirror.example.com/pic.jpg" =
        (.duplicate, (fetch_image exState exEnvWriteFail
          "http://example.com/photo.jpg").2)) :=
  ⟨by simp [exState, init_fetcher, load_existing_hashes],
   C10_hash_retained_on_io_failure exState exEnvWriteFail
     (exEnv exJpegMirror) "http://example.com/photo.jpg"
     "http://mirror.example.com/pic.jpg" exJpeg exJpegMirror
     "Valid image" "Valid image" rfl rfl rfl
     (by simp [exState, init_fetcher, load_existing_hashes])
     (Or.inr rfl) rfl rfl rfl rfl⟩

end UbuntuFetcher
